import Mathlib

/-!
Shallow embedding of the guarded SQL query executor `SafeSQLTool._run`
(src/main.py, lines 44-66).  Strings are modelled as `List Char`; the
regular-expression checks of the source are modelled as executable
character scanners over the ASCII fragment (the queries the guard sees
are ASCII; Python's Unicode whitespace/word classes coincide with the
ASCII ones there).  The SQLAlchemy engine is modelled as an abstract
store: a state-passing function from a statement to either a result
(column names and rows) or a diagnostic error string, standing for the
exception path of `exec_driver_sql`.
-/

/-- Whitespace as stripped by Python `str.strip()` and matched by the
regex class `\s` (ASCII fragment, including the separator controls
`\x1c`-`\x1f` that Python counts as whitespace). -/
def isPySpace (c : Char) : Bool :=
  c = ' ' || c = '\t' || c = '\n' || c = '\r' || c = '\x0b' || c = '\x0c' ||
  c = '\x1c' || c = '\x1d' || c = '\x1e' || c = '\x1f'

/-- Word characters of the regex classes `\w` / `\b` (ASCII fragment). -/
def isWordChar (c : Char) : Bool :=
  c.isAlphanum || c = '_'

/-- `sql.strip()` of line 45: drop leading and trailing whitespace. -/
def pyStrip (l : List Char) : List Char :=
  ((l.dropWhile isPySpace).reverse.dropWhile isPySpace).reverse

/-- `.rstrip(";")` of line 45: drop every trailing semicolon. -/
def rstripSemis (l : List Char) : List Char :=
  (l.reverse.dropWhile (fun c => c = ';')).reverse

/-- `s = sql.strip().rstrip(";")` (line 45): the trimmed statement all
validation checks run on. -/
def trimStatement (l : List Char) : List Char :=
  rstripSemis (pyStrip l)

/-- Case-insensitive literal match at the head of the text: `kw` is given
in lower case and each of its characters must equal the lowered text
character (the `re.I` flag on the ASCII fragment). -/
def startsWithCI : List Char → List Char → Bool
  | [], _ => true
  | _ :: _, [] => false
  | k :: ks, c :: cs => (k = c.toLower) && startsWithCI ks cs

/-- The position right after a candidate match is a word boundary:
end of text or a non-word character. -/
def headNotWord : List Char → Bool
  | [] => true
  | c :: _ => !isWordChar c

/-- `kw` matches here as a whole word ending: the literal matches and a
word boundary follows (`kw\b` at the current position). -/
def matchesWordHere (kw l : List Char) : Bool :=
  startsWithCI kw l && headNotWord (l.drop kw.length)

/-- `re.search` with a pattern of the shape `\b...`: scan every position,
tracking whether the previous character was a word character (so the
leading `\b` holds exactly when it was not), and apply the
position-matcher `m` there. -/
def searchFrom (m : List Char → Bool) : Bool → List Char → Bool
  | _, [] => false
  | prevWord, c :: cs => (!prevWord && m (c :: cs)) || searchFrom m (isWordChar c) cs

/-- The alternatives of the write-operation pattern of line 48,
`\b(INSERT|UPDATE|DELETE|DROP|TRUNCATE|ALTER|CREATE|REPLACE)\b`. -/
def writeKeywords : List (List Char) :=
  ["insert".data, "update".data, "delete".data, "drop".data,
   "truncate".data, "alter".data, "create".data, "replace".data]

/-- Position-matcher for the write-operation pattern. -/
def writeMatcher (l : List Char) : Bool :=
  writeKeywords.any (fun kw => matchesWordHere kw l)

/-- Line 48: `re.search(r"\b(INSERT|UPDATE|DELETE|DROP|TRUNCATE|ALTER|CREATE|REPLACE)\b", s, re.I)`. -/
def hasWriteKeyword (l : List Char) : Bool :=
  searchFrom writeMatcher false l

/-- Line 52: `re.match(r"(?is)^\s*select\b", s)` — optional leading
whitespace, then the word `select` followed by a word boundary. -/
def startsWithSelect (l : List Char) : Bool :=
  matchesWordHere "select".data (l.dropWhile isPySpace)

/-- After maximal digits, a word boundary must follow (`\d+\b`). -/
def digitsBoundary (l : List Char) : Bool :=
  headNotWord (l.dropWhile Char.isDigit)

/-- `\s+\d+\b`: at least one whitespace character, then at least one
digit, then a word boundary. -/
def spacesThenNumber : List Char → Bool
  | [] => false
  | c :: cs =>
    isPySpace c &&
      (match cs.dropWhile isPySpace with
       | [] => false
       | d :: ds => d.isDigit && digitsBoundary ds)

/-- Position-matcher for `limit\s+\d+\b`. -/
def limitMatcher (l : List Char) : Bool :=
  startsWithCI "limit".data l && spacesThenNumber (l.drop 5)

/-- Line 56, first test: `re.search(r"\blimit\s+\d+\b", s, re.I)`. -/
def hasLimitClause (l : List Char) : Bool :=
  searchFrom limitMatcher false l

/-- `group\s+by\b` at the current position. -/
def groupByHere (l : List Char) : Bool :=
  startsWithCI "group".data l &&
    (match l.drop 5 with
     | [] => false
     | c :: cs => isPySpace c && matchesWordHere "by".data (cs.dropWhile isPySpace))

/-- Position-matcher for
`\bcount\(|\bgroup\s+by\b|\bsum\(|\bavg\(|\bmax\(|\bmin\(`. -/
def aggregateMatcher (l : List Char) : Bool :=
  startsWithCI "count(".data l ||
  groupByHere l ||
  startsWithCI "sum(".data l ||
  startsWithCI "avg(".data l ||
  startsWithCI "max(".data l ||
  startsWithCI "min(".data l

/-- Line 56, second test:
`re.search(r"\bcount\(|\bgroup\s+by\b|\bsum\(|\bavg\(|\bmax\(|\bmin\(", s, re.I)`. -/
def hasAggregate (l : List Char) : Bool :=
  searchFrom aggregateMatcher false l

/-- The statement appended on line 57: `" LIMIT 200"`. -/
def limit200 : List Char := " LIMIT 200".data

/-- Outcome of the validation/rewrite phase (lines 45-57): either one of
the three `ERROR:` strings returned before the store is touched, or the
statement handed to `exec_driver_sql`. -/
inductive Verdict where
  | rejected (msg : String)
  | accepted (stmt : List Char)
deriving DecidableEq

/-- Lines 45-57 of `SafeSQLTool._run`: trim, the three guard checks in
source order, then the auto-limit rewrite. -/
def validate (sql : List Char) : Verdict :=
  let s := trimStatement sql
  if hasWriteKeyword s then
    .rejected "ERROR: write operations are not allowed."
  else if s.contains ';' then
    .rejected "ERROR: multiple statements are not allowed."
  else if !startsWithSelect s then
    .rejected "ERROR: only SELECT statements are allowed."
  else if !hasLimitClause s && !hasAggregate s then
    .accepted (s ++ limit200)
  else
    .accepted s

/-- The abstract store behind `engine.connect()` / `exec_driver_sql`
(lines 60-63): given a statement and the store state it either returns
the column names with all rows (`fetchall` materialised), or fails with
a diagnostic message (the raised exception's text), and yields the
state the call leaves behind. -/
structure Store (σ α : Type) where
  exec : List Char → σ → Except String (List String × List (List α)) × σ

/-- The value `_run` returns: either an `ERROR: ...` string or the
`{"columns": ..., "rows": ...}` dictionary. -/
inductive RunResult (α : Type) where
  | errorMsg (msg : String)
  | result (columns : List String) (rows : List (List α))
deriving DecidableEq

namespace SafeSQLTool

/-- `SafeSQLTool._run` (lines 44-66), with the store state threaded
explicitly: validation errors return before the store is consulted;
otherwise the accepted statement is executed and a raised exception is
wrapped as `"ERROR: " ++ message` (line 66). -/
def run {σ α : Type} (store : Store σ α) (st : σ) (sql : String) :
    RunResult α × σ :=
  match validate sql.data with
  | .rejected msg => (.errorMsg msg, st)
  | .accepted stmt =>
    match store.exec stmt st with
    | (.ok (cols, rows), st') => (.result cols rows, st')
    | (.error e, st') => (.errorMsg ("ERROR: " ++ e), st')

end SafeSQLTool

/-- A store that answers every statement with an empty result and keeps
its state: used to observe the guard's output alone. -/
def trivialExecStore : Store Unit Unit :=
  ⟨fun _ st => (.ok ([], []), st)⟩

/-- A store that records every statement it is asked to execute. -/
def recordingStore : Store (List (List Char)) Unit :=
  ⟨fun q st => (.ok ([], []), st ++ [q])⟩

example : hasWriteKeyword ("DROP TABLE products".data) = true := by decide
example : hasWriteKeyword ("SELECT name FROM products".data) = false := by decide
example : hasWriteKeyword ("SELECT updated_at FROM t".data) = false := by decide
example : hasWriteKeyword ("select x from dropped".data) = false := by decide
example : hasWriteKeyword ("select x, drop from t".data) = true := by decide
example : startsWithSelect ("  select * from t".data) = true := by decide
example : startsWithSelect ("selection".data) = false := by decide
example : hasLimitClause ("SELECT a FROM t LIMIT 5".data) = true := by decide
example : hasLimitClause ("SELECT a FROM t limit  42x".data) = false := by decide
example : hasAggregate ("SELECT count(1) FROM t".data) = true := by decide
example : hasAggregate ("SELECT count (1) FROM t".data) = false := by decide
example : hasAggregate ("SELECT a FROM t GROUP  BY a".data) = true := by decide
example : hasAggregate ("SELECT discount FROM t".data) = false := by decide
example : trimStatement ("  SELECT 1;; ".data) = "SELECT 1".data := by decide
example :
    validate ("SELECT name FROM products".data) =
      .accepted ("SELECT name FROM products LIMIT 200".data) := by decide
example :
    validate ("SELECT count(1) FROM orders".data) =
      .accepted ("SELECT count(1) FROM orders".data) := by decide

/-! ### Lemmas about the scanners under appending of `" LIMIT 200"` -/

/-- Whether the character preceding the continuation of a scan is a word
character: the boundary state `searchFrom` would carry after consuming
`l`, starting from `prev`. -/
def endsWord (prev : Bool) : List Char → Bool
  | [] => prev
  | c :: cs => endsWord (isWordChar c) cs

lemma startsWithCI_append_of_le (kw : List Char) :
    ∀ (x t : List Char), kw.length ≤ x.length →
      startsWithCI kw (x ++ t) = startsWithCI kw x := by
  induction kw with
  | nil => intro x t _; rfl
  | cons k ks ih =>
    intro x t h
    cases x with
    | nil => simp at h
    | cons c cs =>
      have h2 : ks.length ≤ cs.length := by
        simp only [List.length_cons] at h; omega
      simp only [List.cons_append, startsWithCI, List.append_eq]
      rw [ih cs t h2]

lemma startsWithCI_short (kw : List Char) :
    ∀ (x : List Char), x.length < kw.length → startsWithCI kw x = false := by
  induction kw with
  | nil => intro x h; simp at h
  | cons k ks ih =>
    intro x h
    cases x with
    | nil => rfl
    | cons c cs =>
      have h2 : cs.length < ks.length := by
        simp only [List.length_cons] at h; omega
      simp only [startsWithCI]
      rw [ih cs h2]
      simp

lemma startsWithCI_append_short (kw : List Char) (c : Char) (t : List Char)
    (hkc : kw.all (fun k => !(decide (k = c.toLower))) = true) :
    ∀ (x : List Char), x.length < kw.length →
      startsWithCI kw (x ++ c :: t) = false := by
  induction kw with
  | nil => intro x h; simp at h
  | cons k ks ih =>
    rw [List.all_cons, Bool.and_eq_true] at hkc
    intro x h
    cases x with
    | nil =>
      simp only [List.nil_append, startsWithCI]
      have hk : decide (k = c.toLower) = false := by
        have := hkc.1
        cases hd : decide (k = c.toLower) with
        | false => rfl
        | true => rw [hd] at this; simp at this
      rw [hk]
      simp
    | cons d ds =>
      have h2 : ds.length < ks.length := by
        simp only [List.length_cons] at h; omega
      simp only [List.cons_append, startsWithCI, List.append_eq]
      rw [ih hkc.2 ds h2]
      simp

lemma matchesWordHere_append (kw x : List Char) (c : Char) (t : List Char)
    (hc : isWordChar c = false)
    (hkc : kw.all (fun k => !(decide (k = c.toLower))) = true) :
    matchesWordHere kw (x ++ c :: t) = matchesWordHere kw x := by
  rcases Nat.lt_or_ge x.length kw.length with h | h
  · unfold matchesWordHere
    rw [startsWithCI_append_short kw c t hkc x h, startsWithCI_short kw x h]
    simp
  · unfold matchesWordHere
    rw [startsWithCI_append_of_le kw x (c :: t) h,
        List.drop_append_of_le_length h]
    cases hd : x.drop kw.length with
    | nil => simp [headNotWord, hc]
    | cons e es => simp only [List.cons_append, headNotWord]

lemma searchFrom_append (m : List Char → Bool) (t : List Char)
    (hm : ∀ x : List Char, m (x ++ t) = m x) :
    ∀ (x : List Char) (prev : Bool),
      searchFrom m prev (x ++ t) =
        (searchFrom m prev x || searchFrom m (endsWord prev x) t) := by
  intro x
  induction x with
  | nil => intro prev; simp [searchFrom, endsWord]
  | cons c cs ih =>
    intro prev
    simp only [List.cons_append, searchFrom, endsWord, List.append_eq]
    have hm2 : m (c :: (cs ++ t)) = m (c :: cs) := hm (c :: cs)
    rw [hm2, ih (isWordChar c), Bool.or_assoc]

lemma writeMatcher_append (x : List Char) :
    writeMatcher (x ++ limit200) = writeMatcher x := by
  show writeMatcher (x ++ ' ' :: "LIMIT 200".data) = writeMatcher x
  unfold writeMatcher writeKeywords
  simp only [List.any_cons, List.any_nil]
  rw [matchesWordHere_append "insert".data x ' ' _ (by decide) (by decide),
      matchesWordHere_append "update".data x ' ' _ (by decide) (by decide),
      matchesWordHere_append "delete".data x ' ' _ (by decide) (by decide),
      matchesWordHere_append "drop".data x ' ' _ (by decide) (by decide),
      matchesWordHere_append "truncate".data x ' ' _ (by decide) (by decide),
      matchesWordHere_append "alter".data x ' ' _ (by decide) (by decide),
      matchesWordHere_append "create".data x ' ' _ (by decide) (by decide),
      matchesWordHere_append "replace".data x ' ' _ (by decide) (by decide)]

lemma hasWriteKeyword_append (x : List Char) :
    hasWriteKeyword (x ++ limit200) = hasWriteKeyword x := by
  unfold hasWriteKeyword
  rw [searchFrom_append writeMatcher limit200 writeMatcher_append x false]
  have h2 : ∀ b : Bool, searchFrom writeMatcher b limit200 = false := by decide
  rw [h2 (endsWord false x)]
  simp

lemma startsWithSelect_append (x : List Char) (h : startsWithSelect x = true) :
    startsWithSelect (x ++ limit200) = true := by
  unfold startsWithSelect at h ⊢
  rw [List.dropWhile_append]
  cases hy : (x.dropWhile isPySpace).isEmpty with
  | true =>
    rw [List.isEmpty_iff] at hy
    rw [hy] at h
    exact absurd h (by decide)
  | false =>
    simp only [hy, Bool.false_eq_true, if_false]
    have hx : (x.dropWhile isPySpace) ++ limit200 =
        (x.dropWhile isPySpace) ++ ' ' :: "LIMIT 200".data := rfl
    rw [hx, matchesWordHere_append "select".data _ ' ' _ (by decide) (by decide)]
    exact h

lemma contains_semi_append (x t : List Char) :
    (x ++ t).contains ';' = (x.contains ';' || t.contains ';') := by
  induction x with
  | nil => simp
  | cons c cs ih =>
    simp only [List.cons_append, List.contains_cons, ih, Bool.or_assoc]

/-! ### Decomposition of the trim step -/

lemma dropWhile_decomp (p : Char → Bool) (l : List Char) :
    ∃ a, l = a ++ l.dropWhile p ∧ a.all p = true := by
  refine ⟨l.takeWhile p, ?_, ?_⟩
  · exact (List.takeWhile_append_dropWhile p l).symm
  · exact List.all_eq_true.mpr (fun x hx => List.mem_takeWhile_imp hx)

lemma rdropWhile_decomp (p : Char → Bool) (l : List Char) :
    ∃ b, l = (l.reverse.dropWhile p).reverse ++ b ∧ b.all p = true := by
  refine ⟨(l.reverse.takeWhile p).reverse, ?_, ?_⟩
  · have h := congrArg List.reverse (List.takeWhile_append_dropWhile p l.reverse)
    rw [List.reverse_append, List.reverse_reverse] at h
    exact h.symm
  · rw [List.all_reverse]
    exact List.all_eq_true.mpr (fun x hx => List.mem_takeWhile_imp hx)

lemma pyStrip_decomp (l : List Char) :
    ∃ a b, l = a ++ pyStrip l ++ b ∧ a.all isPySpace = true ∧
      b.all isPySpace = true := by
  obtain ⟨a, ha, hap⟩ := dropWhile_decomp isPySpace l
  obtain ⟨b, hb, hbp⟩ := rdropWhile_decomp isPySpace (l.dropWhile isPySpace)
  refine ⟨a, b, ?_, hap, hbp⟩
  calc l = a ++ l.dropWhile isPySpace := ha
    _ = a ++ (pyStrip l ++ b) := by unfold pyStrip; rw [← hb]
    _ = a ++ pyStrip l ++ b := (List.append_assoc a (pyStrip l) b).symm

lemma rstripSemis_decomp (x : List Char) :
    ∃ c, x = rstripSemis x ++ c ∧ c.all (fun d => decide (d = ';')) = true := by
  obtain ⟨c, hc, hcp⟩ := rdropWhile_decomp (fun d => decide (d = ';')) x
  exact ⟨c, hc, hcp⟩

lemma rstripSemis_getLast (x : List Char) :
    (rstripSemis x).getLast? ≠ some ';' := by
  intro h
  unfold rstripSemis at h
  rw [List.getLast?_reverse] at h
  have h2 := List.head?_dropWhile_not (fun d => decide (d = ';')) x.reverse
  rw [h] at h2
  simp at h2

example :
    trimStatement ("  SELECT 1 ; ;;  ".data) = "SELECT 1 ; ".data := by decide

/-! ### The guard invariant on accepted statements -/

lemma validate_accepted_safe (sql q : List Char)
    (hv : validate sql = .accepted q) :
    startsWithSelect q = true ∧ q.contains ';' = false ∧
      hasWriteKeyword q = false := by
  cases h1 : hasWriteKeyword (trimStatement sql) with
  | true => simp [validate, h1] at hv
  | false =>
  cases h2 : (trimStatement sql).contains ';' with
  | true =>
    have h2m : ';' ∈ trimStatement sql := by simpa using h2
    simp [validate, h1, h2m] at hv
  | false =>
  have h2m : ';' ∉ trimStatement sql := by simpa using h2
  cases h3 : startsWithSelect (trimStatement sql) with
  | false => simp [validate, h1, h2m, h3] at hv
  | true =>
  cases h4 : hasLimitClause (trimStatement sql) with
  | true =>
    simp [validate, h1, h2m, h3, h4] at hv
    subst hv
    exact ⟨h3, h2, h1⟩
  | false =>
  cases h5 : hasAggregate (trimStatement sql) with
  | true =>
    simp [validate, h1, h2m, h3, h4, h5] at hv
    subst hv
    exact ⟨h3, h2, h1⟩
  | false =>
    simp [validate, h1, h2m, h3, h4, h5] at hv
    subst hv
    refine ⟨startsWithSelect_append _ h3, ?_, ?_⟩
    · rw [contains_semi_append, h2]
      decide
    · rw [hasWriteKeyword_append]
      exact h1

lemma run_accepted_eq {σ α : Type} (store : Store σ α) (st : σ)
    (sql : String) (q : List Char)
    (hv : validate sql.data = .accepted q) :
    SafeSQLTool.run store st sql =
      (match store.exec q st with
       | (.ok (cols, rows), st2) => (.result cols rows, st2)
       | (.error e, st2) => (.errorMsg ("ERROR: " ++ e), st2)) := by
  unfold SafeSQLTool.run
  rw [hv]

/-- A store that fails every statement with a fixed diagnostic, standing
for a raised exception. -/
def failingStore : Store Unit Unit :=
  ⟨fun _ st => (.error "no such table: products", st)⟩

/-! ### Claims -/

/-- C1: whenever the trimmed input contains one of the eight write
keywords as a whole word in any letter case — also when it occurs only
inside a string literal or comment, since the check is textual — `_run`
returns the write-operation error and no store is ever consulted (the
result and the untouched state are the same for every store). -/
theorem writeOperation_denied (sql : String) (σ α : Type) (store : Store σ α)
    (st : σ) (h : hasWriteKeyword (trimStatement sql.data) = true) :
    SafeSQLTool.run store st sql =
      (.errorMsg "ERROR: write operations are not allowed.", st) := by
  unfold SafeSQLTool.run
  simp [validate, h]

/-- C1 witness: the guard rejects `DROP TABLE products` on every store. -/
theorem writeOperation_denied_witness :
    SafeSQLTool.run trivialExecStore () "DROP TABLE products" =
      (.errorMsg "ERROR: write operations are not allowed.", ()) :=
  writeOperation_denied "DROP TABLE products" Unit Unit trivialExecStore ()
    (by decide)

/-- C2: an input that passes the write-keyword and semicolon checks but
whose trimmed text does not begin with the keyword `SELECT` is rejected
with the only-SELECT error, with no store consulted. -/
theorem nonSelect_denied (sql : String) (σ α : Type) (store : Store σ α)
    (st : σ)
    (h1 : hasWriteKeyword (trimStatement sql.data) = false)
    (h2 : (trimStatement sql.data).contains ';' = false)
    (h3 : startsWithSelect (trimStatement sql.data) = false) :
    SafeSQLTool.run store st sql =
      (.errorMsg "ERROR: only SELECT statements are allowed.", st) := by
  have h2m : ';' ∉ trimStatement sql.data := by simpa using h2
  unfold SafeSQLTool.run
  simp [validate, h1, h2m, h3]

/-- C2 witness: `SHOW TABLES` is rejected as non-SELECT. -/
theorem nonSelect_denied_witness :
    SafeSQLTool.run trivialExecStore () "SHOW TABLES" =
      (.errorMsg "ERROR: only SELECT statements are allowed.", ()) :=
  nonSelect_denied "SHOW TABLES" Unit Unit trivialExecStore ()
    (by decide) (by decide) (by decide)

/-- C3 counterexample: `SELECT 1; DROP TABLE x` has a semicolon strictly
after its first non-whitespace character and strictly before its end,
yet `_run` answers with the write-operation error, not the
multiple-statements error, because the write check runs first. -/
theorem multipleStatements_claim_counterexample :
    ("SELECT 1; DROP TABLE x".data)[8]? = some ';' ∧
    isPySpace ("SELECT 1; DROP TABLE x".data.headI) = false ∧
    8 + 1 < ("SELECT 1; DROP TABLE x".data).length ∧
    SafeSQLTool.run trivialExecStore () "SELECT 1; DROP TABLE x" =
      (.errorMsg "ERROR: write operations are not allowed.", ()) ∧
    SafeSQLTool.run trivialExecStore () "SELECT 1; DROP TABLE x" ≠
      (.errorMsg "ERROR: multiple statements are not allowed.", ()) :=
  ⟨by decide, by decide, by decide, by decide, by decide⟩

/-- C3 (amended): for every input with no write keyword in its trimmed
text whose trimmed text (whitespace stripped, every trailing semicolon
removed) still contains a semicolon, `_run` returns the
multiple-statements error, with no store consulted. -/
theorem multipleStatements_denied (sql : String) (σ α : Type)
    (store : Store σ α) (st : σ)
    (h1 : hasWriteKeyword (trimStatement sql.data) = false)
    (h2 : (trimStatement sql.data).contains ';' = true) :
    SafeSQLTool.run store st sql =
      (.errorMsg "ERROR: multiple statements are not allowed.", st) := by
  have h2m : ';' ∈ trimStatement sql.data := by simpa using h2
  unfold SafeSQLTool.run
  simp [validate, h1, h2m]

/-- C3 witness: `SELECT 1; SELECT 2` is rejected for statement stacking. -/
theorem multipleStatements_denied_witness :
    SafeSQLTool.run trivialExecStore () "SELECT 1; SELECT 2" =
      (.errorMsg "ERROR: multiple statements are not allowed.", ()) :=
  multipleStatements_denied "SELECT 1; SELECT 2" Unit Unit trivialExecStore ()
    (by decide) (by decide)

/-- C4 counterexample: `SELECT 1;` passes validation with no limit clause
and no aggregate, but the statement executed against the store is the
trimmed text plus the limiting clause, not the original text plus the
clause: the trailing semicolon is gone. -/
theorem autoLimit_claim_counterexample :
    startsWithSelect (trimStatement ("SELECT 1;".data)) = true ∧
    hasLimitClause (trimStatement ("SELECT 1;".data)) = false ∧
    hasAggregate (trimStatement ("SELECT 1;".data)) = false ∧
    (SafeSQLTool.run recordingStore [] "SELECT 1;").2 =
      ["SELECT 1 LIMIT 200".data] ∧
    "SELECT 1 LIMIT 200".data ≠ ("SELECT 1;" ++ " LIMIT 200").data :=
  ⟨by decide, by decide, by decide, by decide, by decide⟩

/-- C4 (amended): a validated SELECT with neither a limit clause nor an
aggregate construct is executed as exactly its trimmed text with
`" LIMIT 200"` appended — the accepted statement is that text, and a
recording store receives exactly that one statement. -/
theorem autoLimit_appended (sql : String)
    (h1 : hasWriteKeyword (trimStatement sql.data) = false)
    (h2 : (trimStatement sql.data).contains ';' = false)
    (h3 : startsWithSelect (trimStatement sql.data) = true)
    (h4 : hasLimitClause (trimStatement sql.data) = false)
    (h5 : hasAggregate (trimStatement sql.data) = false) :
    validate sql.data = .accepted (trimStatement sql.data ++ limit200) ∧
    (SafeSQLTool.run recordingStore [] sql).2 =
      [trimStatement sql.data ++ limit200] := by
  have h2m : ';' ∉ trimStatement sql.data := by simpa using h2
  have hv : validate sql.data = .accepted (trimStatement sql.data ++ limit200) := by
    simp [validate, h1, h2m, h3, h4, h5]
  refine ⟨hv, ?_⟩
  rw [run_accepted_eq recordingStore [] sql _ hv]
  rfl

/-- C4 witness at `SELECT name FROM products`. -/
theorem autoLimit_appended_witness :
    validate ("SELECT name FROM products".data) =
      .accepted (trimStatement ("SELECT name FROM products".data) ++ limit200) ∧
    (SafeSQLTool.run recordingStore [] "SELECT name FROM products").2 =
      [trimStatement ("SELECT name FROM products".data) ++ limit200] :=
  autoLimit_appended "SELECT name FROM products"
    (by decide) (by decide) (by decide) (by decide) (by decide)

/-- C5: a validated SELECT in which the source's aggregate pattern fires
(`count(`/`sum(`/`avg(`/`max(`/`min(` after a word boundary, or
`group` whitespace `by`) is executed as exactly its trimmed text: no
limiting clause is appended, whether or not a limit clause is present. -/
theorem aggregate_executed_unchanged (sql : String)
    (h1 : hasWriteKeyword (trimStatement sql.data) = false)
    (h2 : (trimStatement sql.data).contains ';' = false)
    (h3 : startsWithSelect (trimStatement sql.data) = true)
    (h5 : hasAggregate (trimStatement sql.data) = true) :
    validate sql.data = .accepted (trimStatement sql.data) ∧
    (SafeSQLTool.run recordingStore [] sql).2 = [trimStatement sql.data] := by
  have h2m : ';' ∉ trimStatement sql.data := by simpa using h2
  have hv : validate sql.data = .accepted (trimStatement sql.data) := by
    simp [validate, h1, h2m, h3, h5]
  refine ⟨hv, ?_⟩
  rw [run_accepted_eq recordingStore [] sql _ hv]
  rfl

/-- C5 witness at `SELECT count(1) FROM orders` (no limit clause of its
own, still executed unchanged). -/
theorem aggregate_executed_unchanged_witness :
    validate ("SELECT count(1) FROM orders".data) =
      .accepted (trimStatement ("SELECT count(1) FROM orders".data)) ∧
    (SafeSQLTool.run recordingStore [] "SELECT count(1) FROM orders").2 =
      [trimStatement ("SELECT count(1) FROM orders".data)] :=
  aggregate_executed_unchanged "SELECT count(1) FROM orders"
    (by decide) (by decide) (by decide) (by decide)

/-- C6 counterexample: an input ending in two semicolons does not keep a
terminator after the trim step — `rstrip(";")` removes them all, so the
trimmed text is `SELECT 1`, not `SELECT 1;`. -/
theorem trim_claim_counterexample :
    trimStatement ("SELECT 1;;".data) = "SELECT 1".data ∧
    trimStatement ("SELECT 1;;".data) ≠ "SELECT 1;".data :=
  ⟨by decide, by decide⟩

/-- C6 (amended): the trim step splits the input into a whitespace
prefix, the trimmed text, a run of trailing semicolons and a whitespace
suffix, and the trimmed text never ends in a semicolon: all trailing
terminators are removed, not at most one. -/
theorem trim_removes_all_terminators (l : List Char) :
    (∃ a c b, l = a ++ (trimStatement l ++ c) ++ b ∧
        a.all isPySpace = true ∧ b.all isPySpace = true ∧
        c.all (fun d => decide (d = ';')) = true) ∧
    (trimStatement l).getLast? ≠ some ';' := by
  constructor
  · obtain ⟨a, b, hab, hap, hbp⟩ := pyStrip_decomp l
    obtain ⟨c, hc, hcp⟩ := rstripSemis_decomp (pyStrip l)
    have h2 : pyStrip l = trimStatement l ++ c := hc
    refine ⟨a, c, b, ?_, hap, hbp, hcp⟩
    calc l = a ++ pyStrip l ++ b := hab
      _ = a ++ (trimStatement l ++ c) ++ b := by rw [h2]
  · exact rstripSemis_getLast (pyStrip l)

/-- C7: validation short-circuits in the fixed order write check,
multi-statement check, statement-kind check: an input violating both the
write rule and the interior-semicolon rule reports only the
write-operation reason, and one violating both the interior-semicolon
rule and the SELECT rule reports only the multiple-statements reason. -/
theorem validation_short_circuits :
    (∀ (sql : String) (σ α : Type) (store : Store σ α) (st : σ),
        hasWriteKeyword (trimStatement sql.data) = true →
        (trimStatement sql.data).contains ';' = true →
        SafeSQLTool.run store st sql =
          (.errorMsg "ERROR: write operations are not allowed.", st)) ∧
    (∀ (sql : String) (σ α : Type) (store : Store σ α) (st : σ),
        hasWriteKeyword (trimStatement sql.data) = false →
        (trimStatement sql.data).contains ';' = true →
        startsWithSelect (trimStatement sql.data) = false →
        SafeSQLTool.run store st sql =
          (.errorMsg "ERROR: multiple statements are not allowed.", st)) := by
  constructor
  · intro sql σ α store st h1 _
    unfold SafeSQLTool.run
    simp [validate, h1]
  · intro sql σ α store st h1 h2 _
    have h2m : ';' ∈ trimStatement sql.data := by simpa using h2
    unfold SafeSQLTool.run
    simp [validate, h1, h2m]

/-- C7 witness: `DELETE FROM t; SELECT 1` violates the write and
multi-statement rules and reports the write reason; `PRAGMA a; PRAGMA b`
violates the multi-statement and SELECT rules and reports the
multi-statement reason. -/
theorem validation_short_circuits_witness :
    SafeSQLTool.run trivialExecStore () "DELETE FROM t; SELECT 1" =
      (.errorMsg "ERROR: write operations are not allowed.", ()) ∧
    SafeSQLTool.run trivialExecStore () "PRAGMA a; PRAGMA b" =
      (.errorMsg "ERROR: multiple statements are not allowed.", ()) :=
  ⟨validation_short_circuits.1 "DELETE FROM t; SELECT 1" Unit Unit
      trivialExecStore () (by decide) (by decide),
   validation_short_circuits.2 "PRAGMA a; PRAGMA b" Unit Unit
      trivialExecStore () (by decide) (by decide) (by decide)⟩

/-- C8: once validation accepts a statement, a store failure is caught
and returned as the error value `"ERROR: " ++` the store's diagnostic
text, and a store success is returned as the column list with all rows;
`_run` is total, so no fault crosses the boundary in the model. -/
theorem execution_errors_wrapped (σ α : Type) (store : Store σ α) (st : σ)
    (sql : String) (q : List Char)
    (hv : validate sql.data = .accepted q) :
    (∀ (e : String) (st' : σ), store.exec q st = (.error e, st') →
        SafeSQLTool.run store st sql = (.errorMsg ("ERROR: " ++ e), st')) ∧
    (∀ (cols : List String) (rows : List (List α)) (st' : σ),
        store.exec q st = (.ok (cols, rows), st') →
        SafeSQLTool.run store st sql = (.result cols rows, st')) := by
  constructor
  · intro e st' hx
    rw [run_accepted_eq store st sql q hv, hx]
  · intro cols rows st' hx
    rw [run_accepted_eq store st sql q hv, hx]

/-- C8 witness: a store raising `no such table: products` yields the
wrapped error value. -/
theorem execution_errors_wrapped_witness :
    SafeSQLTool.run failingStore () "SELECT x FROM products" =
      (.errorMsg "ERROR: no such table: products", ()) :=
  (execution_errors_wrapped Unit Unit failingStore () "SELECT x FROM products"
      ("SELECT x FROM products LIMIT 200".data) (by decide)).1
    "no such table: products" () rfl

/-- C9: against a store on which every statement satisfying the guard
invariant leaves the state unchanged (a read-only store), running the
same input twice yields the identical result and state: `_run` is a
deterministic function of the input string and the store state. -/
theorem run_idempotent (σ α : Type) (store : Store σ α) (st : σ)
    (sql : String)
    (hro : ∀ (q : List Char) (s : σ),
        startsWithSelect q = true → q.contains ';' = false →
        hasWriteKeyword q = false → (store.exec q s).2 = s) :
    SafeSQLTool.run store (SafeSQLTool.run store st sql).2 sql =
      SafeSQLTool.run store st sql := by
  have hst : (SafeSQLTool.run store st sql).2 = st := by
    cases hv : validate sql.data with
    | rejected msg =>
      unfold SafeSQLTool.run
      rw [hv]
    | accepted q =>
      obtain ⟨hs1, hs2, hs3⟩ := validate_accepted_safe sql.data q hv
      have hq : (store.exec q st).2 = st := hro q st hs1 hs2 hs3
      rw [run_accepted_eq store st sql q hv]
      cases hx : store.exec q st with
      | mk r st2 =>
        rw [hx] at hq
        cases r with
        | ok pr =>
          obtain ⟨cols, rows⟩ := pr
          exact hq
        | error e => exact hq
  rw [hst]

/-- C9 witness at `SELECT 1` against a state-preserving store. -/
theorem run_idempotent_witness :
    SafeSQLTool.run trivialExecStore
        ((SafeSQLTool.run trivialExecStore () "SELECT 1").2) "SELECT 1" =
      SafeSQLTool.run trivialExecStore () "SELECT 1" :=
  run_idempotent Unit Unit trivialExecStore () "SELECT 1"
    (fun _ _ _ _ _ => rfl)

/-- C10: for every input, either validation rejects it — and `_run`
returns that error with the state untouched on every store — or the
accepted statement begins with the keyword SELECT after optional
whitespace, contains no semicolon, and contains none of the eight write
keywords as a whole word. -/
theorem guard_invariant (sql : String) :
    (∃ msg, validate sql.data = .rejected msg ∧
        ∀ (σ α : Type) (store : Store σ α) (st : σ),
          SafeSQLTool.run store st sql = (.errorMsg msg, st)) ∨
    (∃ q, validate sql.data = .accepted q ∧ startsWithSelect q = true ∧
        q.contains ';' = false ∧ hasWriteKeyword q = false) := by
  cases hv : validate sql.data with
  | rejected msg =>
    left
    refine ⟨msg, rfl, ?_⟩
    intro σ α store st
    unfold SafeSQLTool.run
    rw [hv]
  | accepted q =>
    right
    exact ⟨q, rfl, validate_accepted_safe sql.data q hv⟩
